import Mathlib

/-!
Verification development for the scholarship-ball funding agent
(`tools_no_code.py`, `tools_no_code_extra.py`).

The Python tools operate on JSON-like dynamic values (dicts with string
keys and arbitrary values).  We embed those values as the inductive type
`Value` and dicts as association lists (`Dict`), with `get`/`set`
mirroring Python `dict.get` / item assignment.  Calendar dates are
modelled as integer day ordinals: the standard-library `datetime`
arithmetic used by the source only ever produces or consumes day
differences, and ISO-date parsing (`datetime.fromisoformat`) is external
library code abstracted as a parameter `daysSince : String → Option Int`
(`none` models a raised `ValueError`, i.e. an unparseable string).
Operations that can raise a Python exception are `Option`-valued
(`none` = an exception propagates).
-/

namespace ScholarshipBall

/-- A JSON-ish Python runtime value: `None`, `bool`, `int`, `float`
(modelled as `ℚ`), `str`, `list`, `dict`. -/
inductive Value where
  | null : Value
  | bool (b : Bool) : Value
  | int (i : Int) : Value
  | float (q : ℚ) : Value
  | str (s : String) : Value
  | list (l : List Value) : Value
  | dict (d : List (String × Value)) : Value

/-- A Python dict with string keys, as an association list (keys unique
in every value the source constructs; `lookup` takes the first match). -/
abbrev Dict := List (String × Value)

/-- `d.get(k)` returning `Option`: `none` when the key is absent. -/
def Dict.get (d : Dict) (k : String) : Option Value :=
  List.lookup k d

/-- `d.get(k, default)`. -/
def Dict.getD (d : Dict) (k : String) (v : Value) : Value :=
  (Dict.get d k).getD v

/-- `d[k] = v`: overwrite the binding of `k` in place when present
(keys are unique in every dict the source constructs), else append. -/
def Dict.set : Dict → String → Value → Dict
  | [], k, v => [(k, v)]
  | (k₁, v₁) :: tl, k, v =>
    if k₁ == k then (k, v) :: tl else (k₁, v₁) :: Dict.set tl k v

/-- Python truthiness (`if x:`) for the embedded values. -/
def pyTruthy : Value → Bool
  | .null => false
  | .bool b => b
  | .int i => !(i == 0)
  | .float q => !(q == 0)
  | .str s => !(s == "")
  | .list l => !l.isEmpty
  | .dict d => !d.isEmpty

/-- Rendering of a float by `str()` / f-string interpolation.  Python
renders floats via shortest-round-trip repr; on the integral and simple
decimal values the claims exercise this agrees with printing the decimal
expansion (an integral float gets a trailing `.0`).  Non-decimal
rationals cannot arise from a Python float; their branch is arbitrary. -/
def pyStrFloat (q : ℚ) : String :=
  if q.den = 1 then toString q.num ++ ".0"
  else if (q * 10).den = 1 then toString (q * 10).num ++ "e-1"
  else if (q * 100).den = 1 then toString (q * 100).num ++ "e-2"
  else toString q.num ++ "/" ++ toString q.den

/-- `str(v)` / f-string interpolation of a value.  The `list`/`dict`
branches approximate Python's container repr (no claim inspects them). -/
def pyStr : Value → String
  | .null => "None"
  | .bool b => if b then "True" else "False"
  | .int i => toString i
  | .float q => pyStrFloat q
  | .str s => s
  | .list _ => "[...]"
  | .dict _ => "\x7b\x7d"

/-- `float(v)` conversion: defined for bools, ints and floats; `none`
models the `TypeError`/`ValueError` raised on other operands.  (Python
also parses numeric *strings*; the donor data model supplies numbers, so
string parsing is conservatively treated as a failure here.) -/
def pyFloat : Value → Option ℚ
  | .bool b => some (if b then 1 else 0)
  | .int i => some (i : ℚ)
  | .float q => some q
  | _ => none

/-- Floor of a rational, computed directly on the numerator/denominator
so that concrete values reduce in the kernel. -/
def qfloor (q : ℚ) : Int :=
  Int.fdiv q.num (q.den : Int)

/-- Python 3 `round(x, 2)`: to the nearest multiple of 1/100, ties to
even (banker's rounding, matching `round`'s documented behaviour). -/
def round2 (q : ℚ) : ℚ :=
  let x : ℚ := q * 100
  let f : Int := qfloor x
  let r : ℚ := x - (f : ℚ)
  let n : Int :=
    if r < 1/2 then f
    else if (1:ℚ)/2 < r then f + 1
    else if f % 2 = 0 then f else f + 1
  (n : ℚ) / 100

/-- Does the first char list occur at the head of the second? -/
def charsHasPre : List Char → List Char → Bool
  | [], _ => true
  | _ :: _, [] => false
  | a :: as, b :: bs => a == b && charsHasPre as bs

/-- Does the first char list occur anywhere inside the second?  Embeds
Python's substring test `needle in hay`. -/
def charsHasSub (needle : List Char) : List Char → Bool
  | [] => charsHasPre needle []
  | b :: bs => charsHasPre needle (b :: bs) || charsHasSub needle bs

/-- `needle in hay` on strings. -/
def strHasSub (needle hay : String) : Bool :=
  charsHasSub needle.data hay.data

/-! ## `grant_search` (`tools_no_code.py`, lines 27–59) -/

/-- `grant_search`.  `today` is the day ordinal of `datetime.now().date()`;
the source stores each deadline as the ISO string of a date, modelled here
by the date's day ordinal (ISO rendering is injective and monotone in the
day ordinal, so nothing about the records is lost). -/
def grant_search (mission_keywords : List String) (region : String)
    (today : Int) (max_results : Int) : List Dict :=
  let keywords_str :=
    if mission_keywords.isEmpty then "general mission alignment"
    else String.intercalate ", " mission_keywords
  let num : Nat := (max 1 max_results).toNat
  (List.range num).map fun (i : Nat) =>
    [("funder_name", .str ("Example Foundation " ++ toString (i + 1))),
     ("mission_focus", .str ("Focus on: " ++ keywords_str)),
     ("award_size_min", .int (5000 + (i : Int) * 1000)),
     ("award_size_max", .int (25000 + (i : Int) * 2000)),
     ("deadline", .int (today + 90 + (i : Int) * 15)),
     ("geographic_restriction", .str region),
     ("eligibility", .str "501(c)(3) non-profit organisation supporting women scholars"),
     ("url", .str ("https://examplefoundation.org/apply/" ++ toString (i + 1)))]

/-! ## `donor_prospect` (`tools_no_code.py`, lines 62–109) -/

/-- The industry filter of `donor_prospect` (lines 83–85).  `none`
models Python `None`; `if industry_filter:` is a truthiness test, so an
empty list also disables the filter.  Set membership in
`set(s.lower() for s in industry_filter)` is list membership after
lowering (duplicates are irrelevant to membership). -/
def industryPass (industry_filter : Option (List String)) (past : List Dict) : List Dict :=
  match industry_filter with
  | none => past
  | some l =>
    if l.isEmpty then past
    else
      past.filter fun d =>
        (l.map String.toLower).contains
          ((pyStr (Dict.getD d "industry" (.str ""))).toLower)

/-- The region filter of `donor_prospect` (lines 86–88): keep donors
whose region contains the filter as a case-insensitive substring; an
empty string (falsy) disables the filter. -/
def regionPass (region : Option String) (past : List Dict) : List Dict :=
  match region with
  | none => past
  | some r =>
    if r == "" then past
    else
      past.filter fun d =>
        strHasSub r.toLower ((pyStr (Dict.getD d "region" (.str ""))).toLower)

/-- The two conjunctive filters of `donor_prospect` (lines 82–88),
applied in source order. -/
def filteredDonors (past_donors : List Dict) (industry_filter : Option (List String))
    (region : Option String) : List Dict :=
  regionPass region (industryPass industry_filter past_donors)

/-- `base = float(d.get("last_gift_amount", 0) or 0)` (line 93).
`none` models the raise of `float()` on a non-numeric truthy value. -/
def baseAmount (d : Dict) : Option ℚ :=
  let v := Dict.getD d "last_gift_amount" (.int 0)
  pyFloat (if pyTruthy v then v else .int 0)

/-- The recency bonus (lines 94–102): `1000 / max(1, days_since)` when the
date value is truthy and parses, `0` otherwise (the `except` clause
swallows the parse failure, modelled by `daysSince _ = none`). -/
def recencyBonus (daysSince : String → Option Int) (d : Dict) : ℚ :=
  match Dict.get d "last_gift_date" with
  | none => 0
  | some v =>
    if pyTruthy v then
      match daysSince (pyStr v) with
      | none => 0
      | some days => 1000 / ((max 1 days : Int) : ℚ)
    else 0

/-- Loop body of the scoring loop (lines 92–106): score the record and
return `dict(d)` with `potential_score` set. -/
def scoreDonor (daysSince : String → Option Int) (d : Dict) : Option Dict :=
  match baseAmount d with
  | none => none
  | some base =>
    let score := base * (1/2 : ℚ) + recencyBonus daysSince d
    some (Dict.set d "potential_score" (.float (round2 score)))

/-- The scoring loop of lines 91–106: score each filtered record in
order, appending to `scored`; a raise from `float()` aborts the call
(`none`). -/
def scoreAll (daysSince : String → Option Int) : List Dict → Option (List Dict)
  | [] => some []
  | d :: rest =>
    match scoreDonor daysSince d, scoreAll daysSince rest with
    | some r, some rs => some (r :: rs)
    | _, _ => none

/-- `x["potential_score"]`, the sort key (line 108).  The scorer always
stores a float here; the catch-all branch is unreachable on its output. -/
def scoreKey (r : Dict) : ℚ :=
  match Dict.get r "potential_score" with
  | some (.float q) => q
  | _ => 0

/-- Stable insertion, parameterised by the strict "must precede"
relation `lt` of the target order: `x` is placed before the first
element that does not strictly precede it, so that elements equivalent
to `x` that were already in the list stay in front only when they
strictly precede it — ties keep input order. -/
def insertOrd (lt : Dict → Dict → Bool) (x : Dict) : List Dict → List Dict
  | [] => [x]
  | y :: ys => if lt y x then y :: insertOrd lt x ys else x :: y :: ys

/-- The stable sort (Python's `sorted` guarantees exactly stability plus
the order), as a structural insertion sort: a stable sort of a list by a
total preorder is unique, so this is the value `sorted` returns. -/
def sortOrd (lt : Dict → Dict → Bool) : List Dict → List Dict
  | [] => []
  | x :: xs => insertOrd lt x (sortOrd lt xs)

/-- The strict "precedes" relation of
`sorted(..., key=lambda x: x["potential_score"], reverse=True)`:
`a` must come before `b` exactly when its score is strictly larger
(descending order; ties fall to stability). -/
def scoreLt (a b : Dict) : Bool :=
  decide (scoreKey b < scoreKey a)

/-- `donor_prospect`.  `daysSince s` abstracts
`(datetime.now() - datetime.fromisoformat(s)).days`, with `none` for an
unparseable string.  Result `none` models a `ValueError` escaping from
`float()` on a malformed gift amount (the only uncaught raise). -/
def donor_prospect (past_donors : List Dict) (industry_filter : Option (List String))
    (region : Option String) (top_n : Int)
    (daysSince : String → Option Int) : Option (List Dict) :=
  match scoreAll daysSince (filteredDonors past_donors industry_filter region) with
  | none => none
  | some scored => some ((sortOrd scoreLt scored).take (max 0 top_n).toNat)

/-! ## `deposit_tracker` (`tools_no_code.py`, lines 112–157) -/

/-- `(details or {}).get(k)`: Python `None` both for an absent `details`
dict and for an absent key. -/
def detailsGet (details : Option Dict) (k : String) : Value :=
  (Dict.get (details.getD []) k).getD .null

/-- `deposit_tracker` — a pure function of the current call's arguments:
the source reads no module-level or nonlocal state, so each call builds
its result dict from `award_id`, `action` and `details` alone. -/
def deposit_tracker (award_id : String) (action : String)
    (details : Option Dict) : Dict :=
  if action == "register_award" then
    [("award_id", .str award_id), ("status", .str "Registered"),
     ("amount_awarded", detailsGet details "amount_awarded")]
  else if action == "record_deposit" then
    [("award_id", .str award_id), ("status", .str "Deposit Recorded"),
     ("deposit_amount", detailsGet details "deposit_amount")]
  else if action == "allocate_funds" then
    [("award_id", .str award_id), ("status", .str "Funds Allocated"),
     ("allocation_details", detailsGet details "allocation_details")]
  else if action == "report_outcome" then
    [("award_id", .str award_id), ("status", .str "Report Submitted"),
     ("outcome_details", detailsGet details "outcome_details")]
  else
    [("award_id", .str award_id), ("status", .str "Unknown action"),
     ("details", match details with | none => .null | some d => .dict d)]

/-! ## `dashboard_summary` (`tools_no_code_extra.py`, lines 65–103) -/

/-- The sort key `x.get("deadline", "")`. -/
def deadlineKeyV (x : Dict) : Value :=
  Dict.getD x "deadline" (.str "")

def isStrV : Value → Bool
  | .str _ => true
  | _ => false

def isNumV : Value → Bool
  | .int _ => true
  | .float _ => true
  | .bool _ => true
  | _ => false

/-- Numeric value of an int/float/bool operand. -/
def numQ : Value → ℚ
  | .int i => (i : ℚ)
  | .float q => q
  | .bool b => if b then 1 else 0
  | _ => 0

/-- Strict ascending order on string deadline keys (Python `str <` is
lexicographic; so is Lean's `String <`). -/
def deadlineLtStr (a b : Dict) : Bool :=
  decide (pyStr (deadlineKeyV a) < pyStr (deadlineKeyV b))

/-- Strict ascending order on numeric deadline keys. -/
def deadlineLtNum (a b : Dict) : Bool :=
  decide (numQ (deadlineKeyV a) < numQ (deadlineKeyV b))

/-- `sorted(opportunities, key=lambda x: x.get("deadline", ""))` (line 81):
a stable ascending sort.  Python `<` raises `TypeError` between values of
unrelated types, so the call succeeds when no comparison mixes types —
guaranteed when all keys are strings, or all numeric, or there is at most
one record; `none` (conservatively) models the mixed-type raising case. -/
def sortByDeadline (opps : List Dict) : Option (List Dict) :=
  if opps.length ≤ 1 then some opps
  else if opps.all (fun x => isStrV (deadlineKeyV x)) then
    some (sortOrd deadlineLtStr opps)
  else if opps.all (fun x => isNumV (deadlineKeyV x)) then
    some (sortOrd deadlineLtNum opps)
  else none

/-- One "next upcoming deadlines" line (line 92).  `opp.get(k)` with no
default is `None` when absent, which the f-string renders as `"None"`. -/
def deadlineLine (opp : Dict) : String :=
  "   - " ++ pyStr (Dict.getD opp "funder_name" .null) ++ " (Deadline: "
    ++ pyStr (Dict.getD opp "deadline" .null) ++ ", Fit Score: "
    ++ pyStr (Dict.getD opp "fit_score" .null) ++ ")\n"

/-- One "top donor/sponsor prospects" line (line 95); same `None`
rendering for absent keys. -/
def prospectLine (p : Dict) : String :=
  "   - " ++ pyStr (Dict.getD p "name" .null) ++ " (Industry: "
    ++ pyStr (Dict.getD p "industry" .null) ++ ", Last Gift: $"
    ++ pyStr (Dict.getD p "last_gift_amount" .null) ++ ", Score: "
    ++ pyStr (Dict.getD p "potential_score" .null) ++ ")\n"

def commaChunksRev : List Char → List Char
  | a :: b :: c :: d :: rest => a :: b :: c :: ',' :: commaChunksRev (d :: rest)
  | l => l

/-- Decimal digits of a natural, grouped in threes by commas. -/
def commaNat (n : Nat) : String :=
  String.mk (commaChunksRev (Nat.toDigits 10 n).reverse).reverse

/-- Python's thousands-separator formatting of an integer. -/
def commaInt (i : Int) : String :=
  if i < 0 then "-" ++ commaNat i.natAbs else commaNat i.natAbs

/-- `format(v, ",")` as used by the `:,` f-string spec: defined on
ints/bools and integral floats; `none` models the raise on non-numeric
values.  (Python also formats non-integral floats; those never arise in
the verified properties, and `none` only weakens what can be proved.) -/
def formatCommaV : Value → Option String
  | .int i => some (commaInt i)
  | .bool b => some (if b then "1" else "0")
  | .float q => if q.den = 1 then some (commaInt q.num ++ ".0") else none
  | _ => none

/-- `target - projected`: Python numeric subtraction; `none` models the
`TypeError` on non-numeric operands.  int−int stays int; any float makes
the result a float; bools act as 0/1 ints. -/
def pySub (a b : Value) : Option Value :=
  match a, b with
  | .int x, .int y => some (.int (x - y))
  | .bool x, .int y => some (.int ((if x then 1 else 0) - y))
  | .int x, .bool y => some (.int (x - (if y then 1 else 0)))
  | .bool x, .bool y => some (.int ((if x then 1 else 0) - (if y then 1 else 0)))
  | x, y => if isNumV x && isNumV y then some (.float (numQ x - numQ y)) else none

/-- The revenue-gap line of the report (line 100). -/
def gapLine (gapFmt : String) : String :=
  "   Gap: $" ++ gapFmt ++ "\n"

/-- Everything of the report before the gap line (lines 85–99): header,
deadline block (only when nonempty), prospect block, and the
target/projected lines.  The source file stores the `🔍`/`•` glyphs of
the fixed prose in a doubly-encoded form; they are transcribed here as
the glyphs themselves (no claim depends on these fixed fragments). -/
def dashPrefix (opportunities donor_prospects sortedOpps : List Dict)
    (tFmt pFmt : String) : String :=
  let head := "🔍 Funding Pipeline Summary:\n\n• Opportunities in pipeline: "
    ++ toString opportunities.length ++ "\n"
  let next_deadlines := sortedOpps.take 3
  let s1 :=
    if next_deadlines.isEmpty then head
    else head ++ "• Next upcoming deadlines:\n"
      ++ String.join (next_deadlines.map deadlineLine)
  let s2 := s1 ++ "\n• Top donor/sponsor prospects:\n"
    ++ String.join ((donor_prospects.take 3).map prospectLine)
  s2 ++ "\n• Event Revenue Projection:\n   Target: $" ++ tFmt
    ++ "\n   Projected: $" ++ pFmt ++ "\n"

/-- The fixed trailer after the gap line (line 101). -/
def dashTail : String :=
  "\nNext immediate steps: Check the top-3 escrow opportunities and reach out to the top pen-prospect donor this week."

/-- `dashboard_summary` (lines 65–103): report assembled as
prefix ++ gap line ++ trailer; `none` models an escaping `TypeError` /
`ValueError` (mixed-type deadline keys under `sorted`, or a non-numeric
revenue value reaching `:,`-formatting or subtraction). -/
def dashboard_summary (opportunities donor_prospects : List Dict)
    (event_projection : Dict) : Option String :=
  match sortByDeadline opportunities with
  | none => none
  | some sortedOpps =>
    let target := Dict.getD event_projection "target_revenue" (.int 0)
    let projected := Dict.getD event_projection "projected_revenue" (.int 0)
    match formatCommaV target, formatCommaV projected, pySub target projected with
    | some tFmt, some pFmt, some gap =>
      match formatCommaV gap with
      | some gapFmt =>
        some (dashPrefix opportunities donor_prospects sortedOpps tFmt pFmt
          ++ (gapLine gapFmt ++ dashTail))
      | none => none
    | _, _, _ => none

/-! ## Auxiliary values used by concrete instances -/

/-- An extractor for integer fields of a record (0 on any other shape);
used to state monotonicity of the generated opportunity records. -/
def intField (r : Dict) (k : String) : Int :=
  match Dict.get r k with
  | some (.int i) => i
  | _ => 0

/-- A date-parsing oracle on which every string fails to parse
(`datetime.fromisoformat` raising on every input). -/
def daysNone : String → Option Int := fun _ => none

/-- A date-parsing oracle making every date string 100 days old. -/
def days100 : String → Option Int := fun _ => some 100

/-- Three donor records used to instantiate the scorer theorems. -/
def sampleDonors : List Dict :=
  [[("last_gift_amount", .int 100)], [("last_gift_amount", .int 300)],
   [("last_gift_amount", .int 200)]]

/-- A single donor record used to instantiate the copy theorem. -/
def sampleDonor : Dict :=
  [("name", .str "TechCorp"), ("last_gift_amount", .int 20000)]

/-! ## General lemmas -/

theorem insertOrd_cons (lt : Dict → Dict → Bool) (x y : Dict) (ys : List Dict) :
    insertOrd lt x (y :: ys)
      = if lt y x then y :: insertOrd lt x ys else x :: y :: ys := rfl

theorem scoreAll_forall₂ (ds : String → Option Int) :
    ∀ (l l' : List Dict), scoreAll ds l = some l' →
      List.Forall₂ (fun d rec => scoreDonor ds d = some rec) l l' := by
  intro l
  induction l with
  | nil =>
    intro l' h
    cases h
    exact List.Forall₂.nil
  | cons d rest ih =>
    intro l' h
    unfold scoreAll at h
    cases hd : scoreDonor ds d with
    | none => rw [hd] at h; cases h
    | some r =>
      rw [hd] at h
      cases hrest : scoreAll ds rest with
      | none => rw [hrest] at h; cases h
      | some rs =>
        rw [hrest] at h
        cases h
        exact List.Forall₂.cons hd (ih rs hrest)

theorem forall₂_mem_right {α β : Type} {R : α → β → Prop} :
    ∀ {l : List α} {l' : List β}, List.Forall₂ R l l' → ∀ b ∈ l', ∃ a ∈ l, R a b := by
  intro l l' h
  induction h with
  | nil => intro b hb; cases hb
  | @cons a b as bs hab _ ih =>
    intro c hc
    rcases List.mem_cons.mp hc with rfl | hc'
    · exact ⟨a, List.mem_cons_self a as, hab⟩
    · rcases ih c hc' with ⟨x, hx, hr⟩
      exact ⟨x, List.mem_cons_of_mem a hx, hr⟩

theorem Dict.get_set_self (d : Dict) (k : String) (v : Value) :
    Dict.get (Dict.set d k v) k = some v := by
  induction d with
  | nil => simp [Dict.set, Dict.get, List.lookup]
  | cons p tl ih =>
    obtain ⟨k₁, v₁⟩ := p
    by_cases h : k₁ = k
    · subst h
      simp [Dict.set, Dict.get, List.lookup]
    · have hb : (k₁ == k) = false := beq_eq_false_iff_ne.mpr h
      have hb' : (k == k₁) = false := beq_eq_false_iff_ne.mpr (Ne.symm h)
      simp only [Dict.set, hb, if_false]
      show List.lookup k ((k₁, v₁) :: Dict.set tl k v) = some v
      simp only [List.lookup, hb']
      exact ih

theorem Dict.get_set_ne (d : Dict) (k k' : String) (v : Value) (h : k' ≠ k) :
    Dict.get (Dict.set d k v) k' = Dict.get d k' := by
  have hb : (k' == k) = false := beq_eq_false_iff_ne.mpr h
  induction d with
  | nil => simp [Dict.set, Dict.get, List.lookup, hb]
  | cons p tl ih =>
    obtain ⟨k₁, v₁⟩ := p
    by_cases h1 : k₁ = k
    · subst h1
      simp [Dict.set, Dict.get, List.lookup, hb]
    · have hb1 : (k₁ == k) = false := beq_eq_false_iff_ne.mpr h1
      by_cases h2 : k' = k₁
      · subst h2
        simp [Dict.set, Dict.get, List.lookup, hb1]
      · have hb2 : (k' == k₁) = false := beq_eq_false_iff_ne.mpr h2
        simp only [Dict.set, hb1, if_false]
        show List.lookup k' ((k₁, v₁) :: Dict.set tl k v)
          = List.lookup k' ((k₁, v₁) :: tl)
        simp only [List.lookup, hb2]
        exact ih

theorem industryPass_subset (f : Option (List String)) (past : List Dict) :
    ∀ x ∈ industryPass f past, x ∈ past := by
  intro x hx
  cases f with
  | none => exact hx
  | some l =>
    by_cases h : l.isEmpty
    · simpa [industryPass, h] using hx
    · simp only [industryPass, h, if_false] at hx
      exact List.mem_of_mem_filter hx

theorem regionPass_subset (r : Option String) (past : List Dict) :
    ∀ x ∈ regionPass r past, x ∈ past := by
  intro x hx
  cases r with
  | none => exact hx
  | some s =>
    by_cases h : s == ""
    · simpa [regionPass, h] using hx
    · simp only [regionPass, h, if_false] at hx
      exact List.mem_of_mem_filter hx

theorem filteredDonors_subset (past : List Dict) (f : Option (List String))
    (r : Option String) : ∀ x ∈ filteredDonors past f r, x ∈ past := by
  intro x hx
  exact industryPass_subset f past x (regionPass_subset r _ x hx)

theorem mem_insertOrd (lt : Dict → Dict → Bool) (x b : Dict) :
    ∀ l : List Dict, b ∈ insertOrd lt x l ↔ b = x ∨ b ∈ l := by
  intro l
  induction l with
  | nil => simp [insertOrd]
  | cons y ys ih =>
    by_cases h : lt y x = true
    · rw [insertOrd_cons, if_pos h]
      simp only [List.mem_cons, ih]
      tauto
    · rw [insertOrd_cons, if_neg h]
      simp only [List.mem_cons]

theorem insertOrd_perm (lt : Dict → Dict → Bool) (x : Dict) :
    ∀ l : List Dict, (insertOrd lt x l).Perm (x :: l) := by
  intro l
  induction l with
  | nil => simp [insertOrd]
  | cons y ys ih =>
    by_cases h : lt y x = true
    · rw [insertOrd_cons, if_pos h]
      exact (ih.cons y).trans (List.Perm.swap x y ys)
    · rw [insertOrd_cons, if_neg h]

theorem sortOrd_perm (lt : Dict → Dict → Bool) :
    ∀ l : List Dict, (sortOrd lt l).Perm l := by
  intro l
  induction l with
  | nil => simp [sortOrd]
  | cons x xs ih =>
    exact (insertOrd_perm lt x (sortOrd lt xs)).trans (ih.cons x)

theorem pairwise_insertOrd_score (x : Dict) :
    ∀ l : List Dict, l.Pairwise (fun a b => scoreKey b ≤ scoreKey a) →
      (insertOrd scoreLt x l).Pairwise (fun a b => scoreKey b ≤ scoreKey a) := by
  intro l
  induction l with
  | nil => intro _; simp [insertOrd]
  | cons y ys ih =>
    intro hp
    rw [List.pairwise_cons] at hp
    by_cases h : scoreLt y x = true
    · have hxy : scoreKey x < scoreKey y := by
        simpa [scoreLt] using h
      rw [insertOrd_cons, if_pos h]
      rw [List.pairwise_cons]
      constructor
      · intro b hb
        rcases (mem_insertOrd scoreLt x b ys).mp hb with rfl | hb'
        · exact le_of_lt hxy
        · exact hp.1 b hb'
      · exact ih hp.2
    · have hyx : scoreKey y ≤ scoreKey x := by
        simpa [scoreLt] using h
      rw [insertOrd_cons, if_neg h]
      rw [List.pairwise_cons]
      refine ⟨?_, List.pairwise_cons.mpr hp⟩
      intro b hb
      rcases List.mem_cons.mp hb with rfl | hb'
      · exact hyx
      · exact le_trans (hp.1 b hb') hyx

theorem pairwise_sortOrd_score :
    ∀ l : List Dict,
      (sortOrd scoreLt l).Pairwise (fun a b => scoreKey b ≤ scoreKey a) := by
  intro l
  induction l with
  | nil => simp [sortOrd]
  | cons x xs ih => exact pairwise_insertOrd_score x (sortOrd scoreLt xs) ih

/-- Inserting `x` never moves a record past one of equal score: the
records of any fixed score `q` in `insertOrd scoreLt x l` are `x`
(when its score is `q`) followed by those of `l`, in order. -/
theorem filter_insertOrd_score (x : Dict) (q : ℚ) :
    ∀ l : List Dict,
      (insertOrd scoreLt x l).filter (fun y => decide (scoreKey y = q))
        = if scoreKey x = q then
            x :: l.filter (fun y => decide (scoreKey y = q))
          else l.filter (fun y => decide (scoreKey y = q)) := by
  intro l
  induction l with
  | nil =>
    by_cases hx : scoreKey x = q <;> simp [insertOrd, List.filter, hx]
  | cons y ys ih =>
    by_cases h : scoreLt y x = true
    · have hxy : scoreKey x < scoreKey y := by
        simpa [scoreLt] using h
      rw [insertOrd_cons, if_pos h]
      by_cases hx : scoreKey x = q
      · have hy : ¬ scoreKey y = q := by
          intro hy
          rw [hx, hy] at hxy
          exact lt_irrefl q hxy
        simp [List.filter, hx, hy, ih]
      · by_cases hy : scoreKey y = q <;> simp [List.filter, hx, hy, ih]
    · rw [insertOrd_cons, if_neg h]
      by_cases hx : scoreKey x = q <;>
        by_cases hy : scoreKey y = q <;> simp [List.filter, hx, hy]

/-- The stable sort keeps equal-score records in input order: filtering
the sorted list at any score value gives back the filtered input. -/
theorem filter_sortOrd_score (q : ℚ) :
    ∀ l : List Dict,
      (sortOrd scoreLt l).filter (fun y => decide (scoreKey y = q))
        = l.filter (fun y => decide (scoreKey y = q)) := by
  intro l
  induction l with
  | nil => simp [sortOrd]
  | cons x xs ih =>
    show (insertOrd scoreLt x (sortOrd scoreLt xs)).filter _ = _
    rw [filter_insertOrd_score]
    by_cases hx : scoreKey x = q <;> simp [List.filter, hx, ih]

/-- When every deadline key is a string, the deadline sort succeeds. -/
theorem sortByDeadline_of_str (opps : List Dict)
    (hdl : ∀ o ∈ opps, isStrV (deadlineKeyV o) = true) :
    sortByDeadline opps
      = some (if opps.length ≤ 1 then opps else sortOrd deadlineLtStr opps) := by
  unfold sortByDeadline
  by_cases h : opps.length ≤ 1
  · simp [h]
  · simp [h, List.all_eq_true.mpr hdl]

/-- `donor_prospect` as filter / score / stable-sort / truncate. -/
theorem donor_prospect_eq (past : List Dict) (f : Option (List String))
    (r : Option String) (n : Int) (ds : String → Option Int) :
    donor_prospect past f r n ds
      = (scoreAll ds (filteredDonors past f r)).map
          (fun scored => (sortOrd scoreLt scored).take (max 0 n).toNat) := by
  cases hx : scoreAll ds (filteredDonors past f r) with
  | none => unfold donor_prospect; rw [hx]; rfl
  | some s => unfold donor_prospect; rw [hx]; rfl

/-! ## Claims -/

/-- C4: for every keyword list, region string, day and integer
`max_results`, the Opportunity Generator returns exactly `max_results`
records when `max_results ≥ 1` and exactly one record when
`max_results ≤ 0`; it is a total function, so it never fails. -/
theorem grant_search_count (kw : List String) (region : String)
    (today : Int) (n : Int) :
    (1 ≤ n → ((grant_search kw region today n).length : Int) = n)
    ∧ (n ≤ 0 → (grant_search kw region today n).length = 1) := by
  have hlen : (grant_search kw region today n).length = (max 1 n).toNat := by
    simp only [grant_search]
    rw [List.length_map, List.length_range]
  constructor <;> intro h <;> rw [hlen] <;> omega

theorem grant_search_count_witness :
    ((grant_search ["women leadership scholarships"] "NY, USA" 20000 5).length : Int) = 5
    ∧ (grant_search [] "NY, USA" 20000 (-3)).length = 1 :=
  ⟨(grant_search_count _ _ _ _).1 (by norm_num),
   (grant_search_count _ _ _ _).2 (by norm_num)⟩

/-- C5: record `i` of the Opportunity Generator's output carries
`award_size_min = 5000 + 1000·i`, `award_size_max = 25000 + 2000·i` and
`deadline = today + (90 + 15·i)` days, and so the minima, the ceilings
and the deadlines are strictly increasing in the index order. -/
theorem grant_search_fields_mono (kw : List String) (region : String)
    (today : Int) (n : Int) :
    (∀ i, i < (grant_search kw region today n).length →
      Dict.get ((grant_search kw region today n).getD i []) "award_size_min"
          = some (.int (5000 + 1000 * (i : Int)))
      ∧ Dict.get ((grant_search kw region today n).getD i []) "award_size_max"
          = some (.int (25000 + 2000 * (i : Int)))
      ∧ Dict.get ((grant_search kw region today n).getD i []) "deadline"
          = some (.int (today + (90 + 15 * (i : Int)))))
    ∧ (∀ i j, i < j → j < (grant_search kw region today n).length →
      intField ((grant_search kw region today n).getD i []) "award_size_min"
          < intField ((grant_search kw region today n).getD j []) "award_size_min"
      ∧ intField ((grant_search kw region today n).getD i []) "award_size_max"
          < intField ((grant_search kw region today n).getD j []) "award_size_max"
      ∧ intField ((grant_search kw region today n).getD i []) "deadline"
          < intField ((grant_search kw region today n).getD j []) "deadline") := by
  have hlen : (grant_search kw region today n).length = (max 1 n).toNat := by
    simp only [grant_search]
    rw [List.length_map, List.length_range]
  have hget : ∀ i, i < (grant_search kw region today n).length →
      (grant_search kw region today n).getD i []
        = [("funder_name", .str ("Example Foundation " ++ toString (i + 1))),
           ("mission_focus", .str ("Focus on: "
              ++ (if kw.isEmpty then "general mission alignment"
                  else String.intercalate ", " kw))),
           ("award_size_min", .int (5000 + (i : Int) * 1000)),
           ("award_size_max", .int (25000 + (i : Int) * 2000)),
           ("deadline", .int (today + 90 + (i : Int) * 15)),
           ("geographic_restriction", .str region),
           ("eligibility", .str "501(c)(3) non-profit organisation supporting women scholars"),
           ("url", .str ("https://examplefoundation.org/apply/" ++ toString (i + 1)))] := by
    intro i hi
    rw [hlen] at hi
    rw [List.getD_eq_getElem?_getD]
    simp only [grant_search, List.getElem?_map, List.getElem?_range hi,
      Option.map_some', Option.getD_some]
  constructor
  · intro i hi
    rw [hget i hi]
    refine ⟨?_, ?_, ?_⟩ <;> simp [Dict.get, List.lookup] <;> ring
  · intro i j hij hj
    rw [hget i (lt_trans hij hj), hget j hj]
    refine ⟨?_, ?_, ?_⟩ <;> simp [intField, Dict.get, List.lookup] <;> omega

theorem grant_search_fields_mono_witness :
    (Dict.get ((grant_search [] "NY" 20000 4).getD 2 []) "award_size_min"
        = some (.int (5000 + 1000 * (2 : Int)))
      ∧ Dict.get ((grant_search [] "NY" 20000 4).getD 2 []) "award_size_max"
        = some (.int (25000 + 2000 * (2 : Int)))
      ∧ Dict.get ((grant_search [] "NY" 20000 4).getD 2 []) "deadline"
        = some (.int (20000 + (90 + 15 * (2 : Int)))))
    ∧ (intField ((grant_search [] "NY" 20000 4).getD 1 []) "award_size_min"
        < intField ((grant_search [] "NY" 20000 4).getD 3 []) "award_size_min"
      ∧ intField ((grant_search [] "NY" 20000 4).getD 1 []) "award_size_max"
        < intField ((grant_search [] "NY" 20000 4).getD 3 []) "award_size_max"
      ∧ intField ((grant_search [] "NY" 20000 4).getD 1 []) "deadline"
        < intField ((grant_search [] "NY" 20000 4).getD 3 []) "deadline") :=
  ⟨(grant_search_fields_mono [] "NY" 20000 4).1 2 (by decide),
   (grant_search_fields_mono [] "NY" 20000 4).2 1 3 (by norm_num) (by decide)⟩

/-- C3: the Award Lifecycle Tracker maps each recognized action to its
status string, echoing the corresponding detail field; any other action
yields status "Unknown action" with the raw details payload echoed
verbatim; a missing detail field is echoed as `None` (null), never an
error (`deposit_tracker` is total). -/
theorem deposit_tracker_actions (aid : String) (details : Option Dict) :
    deposit_tracker aid "register_award" details
      = [("award_id", .str aid), ("status", .str "Registered"),
         ("amount_awarded", detailsGet details "amount_awarded")]
    ∧ deposit_tracker aid "record_deposit" details
      = [("award_id", .str aid), ("status", .str "Deposit Recorded"),
         ("deposit_amount", detailsGet details "deposit_amount")]
    ∧ deposit_tracker aid "allocate_funds" details
      = [("award_id", .str aid), ("status", .str "Funds Allocated"),
         ("allocation_details", detailsGet details "allocation_details")]
    ∧ deposit_tracker aid "report_outcome" details
      = [("award_id", .str aid), ("status", .str "Report Submitted"),
         ("outcome_details", detailsGet details "outcome_details")]
    ∧ (∀ a : String, a ≠ "register_award" → a ≠ "record_deposit" →
        a ≠ "allocate_funds" → a ≠ "report_outcome" →
        deposit_tracker aid a details
          = [("award_id", .str aid), ("status", .str "Unknown action"),
             ("details", match details with
                         | none => Value.null
                         | some d => Value.dict d)])
    ∧ (∀ k, Dict.get (details.getD []) k = none →
        detailsGet details k = Value.null) := by
  refine ⟨rfl, rfl, rfl, rfl, ?_, ?_⟩
  · intro a h1 h2 h3 h4
    have e1 := beq_eq_false_iff_ne.mpr h1
    have e2 := beq_eq_false_iff_ne.mpr h2
    have e3 := beq_eq_false_iff_ne.mpr h3
    have e4 := beq_eq_false_iff_ne.mpr h4
    simp [deposit_tracker, e1, e2, e3, e4]
  · intro k hk
    simp [detailsGet, hk]

theorem deposit_tracker_actions_witness :
    deposit_tracker "AWD-001" "bogus" (some [("x", .int 1)])
      = [("award_id", .str "AWD-001"), ("status", .str "Unknown action"),
         ("details", .dict [("x", .int 1)])]
    ∧ detailsGet (some [("deposit_amount", .int 25000)]) "amount_awarded"
      = Value.null :=
  ⟨(deposit_tracker_actions "AWD-001" (some [("x", .int 1)])).2.2.2.2.1 "bogus"
      (by decide) (by decide) (by decide) (by decide),
   (deposit_tracker_actions "AWD-001" (some [("deposit_amount", .int 25000)])).2.2.2.2.2
      "amount_awarded" rfl⟩

/-- C2: each tracker call is a function of only the current call's
arguments.  The source function reads no module-level or nonlocal state,
so the embedding is a pure function of `(award_id, action, details)`;
consequently the snapshot returned by `record_deposit` — in particular
when it follows a `register_award` call for the same identifier — is the
same fixed function of `(award_id, details)`: its keys are exactly
`award_id`, `status`, `deposit_amount`, it carries no `amount_awarded`
field and no trace of the prior "Registered" status, whatever the
details `d1` of the earlier `register_award` call were. -/
theorem deposit_tracker_stateless (aid : String) (d1 d2 : Option Dict) :
    deposit_tracker aid "register_award" d1
      = [("award_id", .str aid), ("status", .str "Registered"),
         ("amount_awarded", detailsGet d1 "amount_awarded")]
    ∧ deposit_tracker aid "record_deposit" d2
      = [("award_id", .str aid), ("status", .str "Deposit Recorded"),
         ("deposit_amount", detailsGet d2 "deposit_amount")]
    ∧ (deposit_tracker aid "record_deposit" d2).map Prod.fst
      = ["award_id", "status", "deposit_amount"]
    ∧ Dict.get (deposit_tracker aid "record_deposit" d2) "amount_awarded" = none
    ∧ Dict.get (deposit_tracker aid "record_deposit" d2) "status"
      = some (.str "Deposit Recorded") :=
  ⟨rfl, rfl, rfl, rfl, rfl⟩

/-- C1: the Donor Scorer's `potential_score` is
`round2 (0.5 × base + recency_bonus)` where `base` is the converted
`last_gift_amount`; the bonus is `1000 / max 1 days` when the date field
is present, truthy and parses, and `0` when the field is absent, falsy
or unparseable — in the last case no error is surfaced (the record is
still scored, first conjunct, for any parsing outcome). -/
theorem donor_score_formula (daysSince : String → Option Int) (d : Dict)
    (base : ℚ) (hb : baseAmount d = some base) :
    scoreDonor daysSince d
      = some (Dict.set d "potential_score"
          (.float (round2 (base * (1/2) + recencyBonus daysSince d))))
    ∧ (∀ v days, Dict.get d "last_gift_date" = some v → pyTruthy v = true →
        daysSince (pyStr v) = some days →
        recencyBonus daysSince d = 1000 / ((max 1 days : Int) : ℚ))
    ∧ (∀ v, Dict.get d "last_gift_date" = some v → pyTruthy v = true →
        daysSince (pyStr v) = none → recencyBonus daysSince d = 0)
    ∧ (∀ v, Dict.get d "last_gift_date" = some v → pyTruthy v = false →
        recencyBonus daysSince d = 0)
    ∧ (Dict.get d "last_gift_date" = none → recencyBonus daysSince d = 0) := by
  refine ⟨by simp [scoreDonor, hb], ?_, ?_, ?_, ?_⟩
  · intro v days hv htr hd
    simp [recencyBonus, hv, htr, hd]
  · intro v hv htr hd
    simp [recencyBonus, hv, htr, hd]
  · intro v hv htr
    simp [recencyBonus, hv, htr]
  · intro hv
    simp [recencyBonus, hv]

theorem donor_score_formula_witness :
    scoreDonor days100
        [("last_gift_amount", .int 20000), ("last_gift_date", .str "2024-08-15")]
      = some (Dict.set
          [("last_gift_amount", .int 20000), ("last_gift_date", .str "2024-08-15")]
          "potential_score"
          (.float (round2 (((20000 : Int) : ℚ) * (1/2)
            + recencyBonus days100
                [("last_gift_amount", .int 20000),
                 ("last_gift_date", .str "2024-08-15")]))))
    ∧ recencyBonus days100
        [("last_gift_amount", .int 20000), ("last_gift_date", .str "2024-08-15")]
      = 1000 / ((max 1 (100 : Int) : Int) : ℚ) :=
  ⟨(donor_score_formula days100
      [("last_gift_amount", .int 20000), ("last_gift_date", .str "2024-08-15")]
      ((20000 : Int) : ℚ) rfl).1,
   (donor_score_formula days100
      [("last_gift_amount", .int 20000), ("last_gift_date", .str "2024-08-15")]
      ((20000 : Int) : ℚ) rfl).2.1 (.str "2024-08-15") 100 rfl rfl rfl⟩

/-- C10: an empty industry allow-list (`[]`) or an empty region string
(`""`) is falsy, so the corresponding filter is skipped entirely — the
scorer behaves exactly as if no filter (`None`) had been passed, and in
particular an empty allow-list never filters out every donor. -/
theorem donor_empty_filters_noop (past : List Dict) (f : Option (List String))
    (r : Option String) (n : Int) (ds : String → Option Int) :
    donor_prospect past (some []) r n ds = donor_prospect past none r n ds
    ∧ donor_prospect past f (some "") n ds = donor_prospect past f none n ds
    ∧ filteredDonors past (some []) r = filteredDonors past none r
    ∧ filteredDonors past f (some "") = filteredDonors past f none :=
  ⟨rfl, rfl, rfl, rfl⟩

/-- C6: whenever the Donor Scorer returns (i.e. no `float()` conversion
raised), the output has at most `max 0 top_n` records (so a negative or
zero `top_n` yields the empty list) and at most as many records as
survive the filters; it is sorted in descending `potential_score` order;
and ties preserve the original relative input order: for each score
value `q`, the output's records of score `q` form an order-preserving
sublist of the scored records (which are in filtered-input order, by the
`Forall₂` clause). -/
theorem donor_prospect_sorted_stable (past : List Dict)
    (f : Option (List String)) (r : Option String) (n : Int)
    (ds : String → Option Int) (out : List Dict)
    (h : donor_prospect past f r n ds = some out) :
    ((out.length : Int) ≤ max 0 n)
    ∧ out.length ≤ (filteredDonors past f r).length
    ∧ (n ≤ 0 → out = [])
    ∧ out.Pairwise (fun a b => scoreKey b ≤ scoreKey a)
    ∧ ∃ scored, scoreAll ds (filteredDonors past f r) = some scored
        ∧ List.Forall₂ (fun d rec => scoreDonor ds d = some rec)
            (filteredDonors past f r) scored
        ∧ ∀ q : ℚ, (out.filter (fun x => decide (scoreKey x = q))).Sublist
            (scored.filter (fun x => decide (scoreKey x = q))) := by
  rw [donor_prospect_eq] at h
  cases hm : scoreAll ds (filteredDonors past f r) with
  | none => rw [hm] at h; cases h
  | some scored =>
    rw [hm] at h
    simp only [Option.map_some', Option.some.injEq] at h
    subst h
    have hf2 := scoreAll_forall₂ ds _ _ hm
    have hlensc : scored.length = (filteredDonors past f r).length :=
      hf2.length_eq.symm
    have hlenms : (sortOrd scoreLt scored).length = scored.length :=
      (sortOrd_perm scoreLt scored).length_eq
    refine ⟨?_, ?_, ?_, ?_, scored, rfl, hf2, ?_⟩
    · rw [List.length_take]
      omega
    · rw [List.length_take]
      omega
    · intro hn
      have : (max 0 n).toNat = 0 := by omega
      rw [this, List.take_zero]
    · exact List.Pairwise.sublist (List.take_sublist _ _) (pairwise_sortOrd_score scored)
    · intro q
      have h1 : (((sortOrd scoreLt scored).take (max 0 n).toNat).filter
            (fun x => decide (scoreKey x = q))).Sublist
          ((sortOrd scoreLt scored).filter (fun x => decide (scoreKey x = q))) :=
        List.Sublist.filter _ (List.take_sublist _ _)
      rwa [filter_sortOrd_score] at h1

theorem donor_prospect_sorted_stable_witness :
    ((((donor_prospect sampleDonors none none 2 daysNone).getD []).length : Int)
      ≤ max 0 2)
    ∧ ((donor_prospect sampleDonors none none 2 daysNone).getD []).length
      ≤ (filteredDonors sampleDonors none none).length
    ∧ ((donor_prospect sampleDonors none none 2 daysNone).getD []).Pairwise
        (fun a b => scoreKey b ≤ scoreKey a) :=
  ⟨(donor_prospect_sorted_stable sampleDonors none none 2 daysNone
      ((donor_prospect sampleDonors none none 2 daysNone).getD []) (by rfl)).1,
   (donor_prospect_sorted_stable sampleDonors none none 2 daysNone
      ((donor_prospect sampleDonors none none 2 daysNone).getD []) (by rfl)).2.1,
   (donor_prospect_sorted_stable sampleDonors none none 2 daysNone
      ((donor_prospect sampleDonors none none 2 daysNone).getD []) (by rfl)).2.2.2.1⟩

/-- C7: whenever the Donor Scorer returns, every returned record is a
copy of one of the caller's input records with the single field
`potential_score` set to a float: it holds that score under
`potential_score` and agrees with the input record on every other key.
(The embedding is a pure function, so the caller's records themselves
are never mutated — `dict(d)` copies before the assignment.) -/
theorem donor_prospect_fresh (past : List Dict) (f : Option (List String))
    (r : Option String) (n : Int) (ds : String → Option Int) (out : List Dict)
    (h : donor_prospect past f r n ds = some out) :
    ∀ rec ∈ out, ∃ d ∈ past, ∃ q : ℚ,
      rec = Dict.set d "potential_score" (.float q)
      ∧ Dict.get rec "potential_score" = some (.float q)
      ∧ ∀ k, k ≠ "potential_score" → Dict.get rec k = Dict.get d k := by
  rw [donor_prospect_eq] at h
  cases hm : scoreAll ds (filteredDonors past f r) with
  | none => rw [hm] at h; cases h
  | some scored =>
    rw [hm] at h
    simp only [Option.map_some', Option.some.injEq] at h
    subst h
    intro rec hrec
    have hrec1 : rec ∈ sortOrd scoreLt scored :=
      (List.take_sublist _ _).mem hrec
    have hrec2 : rec ∈ scored :=
      (sortOrd_perm scoreLt scored).mem_iff.mp hrec1
    obtain ⟨d, hd, hsd⟩ :=
      forall₂_mem_right (scoreAll_forall₂ ds _ _ hm) rec hrec2
    refine ⟨d, filteredDonors_subset past f r d hd, ?_⟩
    unfold scoreDonor at hsd
    cases hb : baseAmount d with
    | none => rw [hb] at hsd; cases hsd
    | some base =>
      rw [hb] at hsd
      simp only [Option.some.injEq] at hsd
      refine ⟨round2 (base * (1/2) + recencyBonus ds d), ?_, ?_, ?_⟩
      · exact hsd.symm
      · rw [← hsd]
        exact Dict.get_set_self d "potential_score" _
      · intro k hk
        rw [← hsd]
        exact Dict.get_set_ne d "potential_score" k _ hk

theorem donor_prospect_fresh_witness :
    ∃ d ∈ [sampleDonor], ∃ q : ℚ,
      ((donor_prospect [sampleDonor] none none 5 days100).getD []).getD 0 []
        = Dict.set d "potential_score" (.float q)
      ∧ Dict.get (((donor_prospect [sampleDonor] none none 5 days100).getD
          []).getD 0 []) "potential_score" = some (.float q)
      ∧ ∀ k, k ≠ "potential_score" →
          Dict.get (((donor_prospect [sampleDonor] none none 5 days100).getD
            []).getD 0 []) k = Dict.get d k := by
  have hlen : 0 < ((donor_prospect [sampleDonor] none none 5 days100).getD
      []).length := by decide
  have hmem : ((donor_prospect [sampleDonor] none none 5 days100).getD
        []).getD 0 []
      ∈ (donor_prospect [sampleDonor] none none 5 days100).getD [] := by
    rw [List.getD_eq_getElem _ _ hlen]
    exact List.getElem_mem hlen
  exact donor_prospect_fresh [sampleDonor] none none 5 days100
    ((donor_prospect [sampleDonor] none none 5 days100).getD []) (by rfl) _ hmem

/-- C8: whenever the revenue fields hold integers `t` and `p` (with the
defaulting of §`dashboard_summary` already applied) and the deadline sort
succeeds, the produced report carries the gap line rendering exactly
`t − p` — the raw difference, never clamped, so it is negative whenever
the projection exceeds the target. -/
theorem dashboard_gap_unclamped (opps dons : List Dict) (proj : Dict)
    (sorted : List Dict) (t p : Int)
    (hs : sortByDeadline opps = some sorted)
    (ht : Dict.getD proj "target_revenue" (.int 0) = .int t)
    (hp : Dict.getD proj "projected_revenue" (.int 0) = .int p) :
    dashboard_summary opps dons proj
      = some (dashPrefix opps dons sorted (commaInt t) (commaInt p)
          ++ (gapLine (commaInt (t - p)) ++ dashTail)) := by
  unfold dashboard_summary
  rw [hs, ht, hp]
  rfl

theorem dashboard_gap_unclamped_witness :
    dashboard_summary [] []
        [("target_revenue", .int 100000), ("projected_revenue", .int 65000)]
      = some (dashPrefix [] [] [] "100,000" "65,000"
          ++ (gapLine "35,000" ++ dashTail))
    ∧ dashboard_summary [] []
        [("target_revenue", .int 50000), ("projected_revenue", .int 65000)]
      = some (dashPrefix [] [] [] "50,000" "65,000"
          ++ (gapLine "-15,000" ++ dashTail)) :=
  ⟨dashboard_gap_unclamped [] []
      [("target_revenue", .int 100000), ("projected_revenue", .int 65000)]
      [] 100000 65000 rfl rfl rfl,
   dashboard_gap_unclamped [] []
      [("target_revenue", .int 50000), ("projected_revenue", .int 65000)]
      [] 50000 65000 rfl rfl rfl⟩

/-- C9 (amended): on inputs typed as the data model describes — deadline
keys strings where present, revenue fields integers where present — the
Dashboard Aggregator always succeeds; a missing deadline key is
defaulted to the empty string for sorting and missing revenue fields to
zero, but the other missing record fields (`funder_name`, `name`,
`potential_score`, `last_gift_amount`, `fit_score`, `industry`) are
rendered as the string "None" in the report, not as an empty string. -/
theorem dashboard_total_with_defaults (opps dons : List Dict) (proj : Dict)
    (hdl : ∀ o ∈ opps, isStrV (deadlineKeyV o) = true)
    (ht : ∀ v, Dict.get proj "target_revenue" = some v → ∃ t : Int, v = .int t)
    (hp : ∀ v, Dict.get proj "projected_revenue" = some v → ∃ p : Int, v = .int p) :
    (∃ s, dashboard_summary opps dons proj = some s)
    ∧ (∀ o : Dict, Dict.get o "deadline" = none → deadlineKeyV o = .str "")
    ∧ (Dict.get proj "target_revenue" = none →
        Dict.getD proj "target_revenue" (.int 0) = .int 0)
    ∧ (∀ rec : Dict, Dict.get rec "name" = none →
        pyStr (Dict.getD rec "name" Value.null) = "None") := by
  have htv : ∃ t : Int, Dict.getD proj "target_revenue" (.int 0) = .int t := by
    cases hv : Dict.get proj "target_revenue" with
    | none => exact ⟨0, by simp [Dict.getD, hv]⟩
    | some v =>
      obtain ⟨t, rfl⟩ := ht v hv
      exact ⟨t, by simp [Dict.getD, hv]⟩
  have hpv : ∃ p : Int, Dict.getD proj "projected_revenue" (.int 0) = .int p := by
    cases hv : Dict.get proj "projected_revenue" with
    | none => exact ⟨0, by simp [Dict.getD, hv]⟩
    | some v =>
      obtain ⟨p, rfl⟩ := hp v hv
      exact ⟨p, by simp [Dict.getD, hv]⟩
  obtain ⟨t, htv⟩ := htv
  obtain ⟨p, hpv⟩ := hpv
  refine ⟨?_, ?_, ?_, ?_⟩
  · exact ⟨_, dashboard_gap_unclamped opps dons proj _ t p
      (sortByDeadline_of_str opps hdl) htv hpv⟩
  · intro o ho
    simp [deadlineKeyV, Dict.getD, ho]
  · intro hv
    simp [Dict.getD, hv]
  · intro rec hr
    simp [Dict.getD, hr, pyStr]

theorem dashboard_total_with_defaults_witness :
    ∃ s, dashboard_summary [[("deadline", .str "2026-01-01")]] [[]] []
      = some s :=
  (dashboard_total_with_defaults [[("deadline", .str "2026-01-01")]] [[]] []
    (by intro o ho; rw [List.mem_singleton] at ho; subst ho; rfl)
    (by intro v hv; cases hv) (by intro v hv; cases hv)).1

/-- C9 counterexample: the claim's "any missing key is substituted by an
empty-string or zero default in the produced report" fails — a donor
record without `name`/`industry`/`last_gift_amount`/`potential_score`
is rendered with the string "None" in each slot (Python interpolates the
`None` returned by `.get(k)`), and the produced report differs from the
report for the same record with empty-string or zero values filled in. -/
theorem dashboard_missing_key_renders_None :
    prospectLine [] = "   - None (Industry: None, Last Gift: $None, Score: None)\n"
    ∧ dashboard_summary [] [[]] []
        ≠ dashboard_summary [] [[("name", Value.str ""), ("industry", Value.str ""),
            ("last_gift_amount", Value.str ""), ("potential_score", Value.str "")]] []
    ∧ dashboard_summary [] [[]] []
        ≠ dashboard_summary [] [[("name", Value.int 0), ("industry", Value.int 0),
            ("last_gift_amount", Value.int 0), ("potential_score", Value.int 0)]] [] := by
  refine ⟨rfl, ?_, ?_⟩ <;> decide

end ScholarshipBall
